import Mathlib

/-!
Verification of the Repository Tree Resolver of link2link.

The component under study is the function fetchRepoFileTree of
src/unnamed/part_000 (the GitHub tree service module), together with the
caller-side input parser parseRepoInput of src/components/RepoAnalyzer.tsx.
Network responses are modelled explicitly: a remote is a function from
(owner, repo, branch) to a BranchResponse, and the resolver additionally
returns the list of branches for which a request was issued, so that
claims about which requests happen can be stated.
-/

namespace Link2Link

/-- One entry of the GitHub recursive tree response: a path and an object
type string ("blob" for files, "tree" for directories, ...). -/
structure TreeEntry where
  path : String
  type : String
deriving DecidableEq, Repr

/-- Checks whether the pattern is an initial run of the character list,
character by character. -/
def charsStartWith : List Char → List Char → Bool
  | _, [] => true
  | [], _ :: _ => false
  | c :: cs, p :: ps => c == p && charsStartWith cs ps

/-- Checks whether the pattern occurs contiguously anywhere in the
character list. -/
def charsContain : List Char → List Char → Bool
  | [], pat => pat.isEmpty
  | c :: cs, pat => charsStartWith (c :: cs) pat || charsContain cs pat

/-- JavaScript String.prototype.includes: substring containment. -/
def strIncludes (s pat : String) : Bool :=
  charsContain s.data pat.data

/-- Checks whether the pattern is a final run of the character list. -/
def charsEndWith (s pat : List Char) : Bool :=
  charsStartWith s.reverse pat.reverse

/-- ASCII lower-casing of every character; regex /i canonicalization and
JS toLowerCase agree with this on the ASCII range, and the extension
patterns are all ASCII. -/
def charsToLower (cs : List Char) : List Char :=
  cs.map Char.toLower

/-- The extension alternatives of the filter regex in fetchRepoFileTree:
/\.(js|jsx|ts|tsx|py|go|rs|java|c|cpp|h|hpp|cs|php|rb|swift|kt|dart|json|yaml|yml|toml|xml|html|css)$/i -/
def fileExtensions : List String :=
  ["js", "jsx", "ts", "tsx", "py", "go", "rs", "java", "c", "cpp", "h",
   "hpp", "cs", "php", "rb", "swift", "kt", "dart", "json", "yaml", "yml",
   "toml", "xml", "html", "css"]

/-- path.match(/\.(...)$/i) as a Boolean: the lower-cased path ends with a
dot followed by one of the listed extensions. -/
def hasAllowedExtension (path : String) : Bool :=
  fileExtensions.any (fun ext => charsEndWith (charsToLower path.data) ('.' :: ext.data))

/-- The filter applied by fetchRepoFileTree to data.tree: keep blobs with a
recognized extension whose path avoids node_modules, dist/, build/ as
substrings and does not start with a dot. -/
def filterTree (tree : List TreeEntry) : List TreeEntry :=
  tree.filter (fun item =>
    item.type == "blob" &&
    hasAllowedExtension item.path &&
    !(strIncludes item.path "node_modules") &&
    !(strIncludes item.path "dist/") &&
    !(strIncludes item.path "build/") &&
    !(charsStartWith item.path.data ['.']))

/-- The response observed for one branch request in fetchRepoFileTree:
an ok HTTP response carrying the truncated flag and an optional tree list
(none models a missing or null tree field), a non-ok HTTP status, or a
thrown error (network failure, malformed body) carrying its message. -/
inductive BranchResponse where
  | httpOk (truncated : Bool) (tree : Option (List TreeEntry))
  | httpError (status : Nat)
  | netError (msg : String)
deriving DecidableEq, Repr

/-- Two responses that agree except possibly on the truncated flag of an
ok response. -/
def sameUpToTruncation (r r' : BranchResponse) : Prop :=
  match r, r' with
  | .httpOk _ t, .httpOk _ t' => t = t'
  | a, b => a = b

/-- The candidate default-branch list of fetchRepoFileTree. -/
def branches : List String := ["main", "master"]

/-- The message of the rate-limit Error thrown on HTTP 403 / 429. -/
def rateLimitMsg : String :=
  "GitHub API rate limit exceeded. Please try again later (usually resets in an hour)."

/-- The message of the Error thrown after all branches failed; it embeds
branches.join(', '). -/
def notFoundMsg : String :=
  "Failed to fetch repository. It might be private, non-existent, or using a non-standard default branch (checked: "
    ++ String.intercalate ", " branches ++ ")."

/-- What the try block's body does for one response: return the filtered
list, throw an Error with a message, or fall through to the next loop
iteration (any non-ok status other than 403/429). -/
inductive TryOutcome where
  | returned (files : List TreeEntry)
  | threw (msg : String)
  | fellThrough
deriving DecidableEq, Repr

/-- The body of the try block of fetchRepoFileTree for one response.
(data.tree || []) is modelled by Option.getD with default []. The
truncated flag only triggers console.warn, a side effect outside the
model. -/
def tryBody (r : BranchResponse) : TryOutcome :=
  match r with
  | .httpOk _truncated tree => .returned (filterTree (tree.getD []))
  | .httpError s =>
      if s == 403 || s == 429 then .threw rateLimitMsg else .fellThrough
  | .netError msg => .threw msg

/-- Outcome of one loop iteration after the catch handler ran: return,
rethrow (ending the whole call), or advance to the next branch. -/
inductive StepResult where
  | done (files : List TreeEntry)
  | fatal (msg : String)
  | next
deriving DecidableEq, Repr

/-- One loop iteration of fetchRepoFileTree: run the try body; a thrown
error is rethrown when its message includes the substring "rate limit"
and is otherwise swallowed (console.error on the last branch is a side
effect outside the model). -/
def runBranch (r : BranchResponse) : StepResult :=
  match tryBody r with
  | .returned files => .done files
  | .threw msg => if strIncludes msg "rate limit" then .fatal msg else .next
  | .fellThrough => .next

/-- Result of a full fetchRepoFileTree call: the returned filtered list,
or the message of the Error the call throws. -/
inductive FetchOutcome where
  | success (files : List TreeEntry)
  | failure (msg : String)
deriving DecidableEq, Repr

/-- The for-loop of fetchRepoFileTree over the remaining candidate
branches, also recording which branches were requested, in order. When
the list is exhausted the final NotFound error is thrown. -/
def fetchLoop (resp : String → String → String → BranchResponse)
    (owner repo : String) : List String → FetchOutcome × List String
  | [] => (.failure notFoundMsg, [])
  | b :: bs =>
    match runBranch (resp owner repo b) with
    | .done files => (.success files, [b])
    | .fatal msg => (.failure msg, [b])
    | .next =>
      let rest := fetchLoop resp owner repo bs
      (rest.1, b :: rest.2)

/-- fetchRepoFileTree(owner, repo) against an explicit remote: tries the
candidate branches in order and returns the outcome together with the
list of branches actually requested. -/
def fetchRepoFileTree (owner repo : String)
    (resp : String → String → String → BranchResponse) :
    FetchOutcome × List String :=
  fetchLoop resp owner repo branches

/-- The owner/repo pair produced by the caller's parser. -/
structure RepositoryReference where
  owner : String
  repo : String
deriving DecidableEq, Repr

/-- The hostname and pathname of a successfully constructed URL object;
constructing a URL (and what hostname/pathname it reports) is left
abstract, as an oracle parameter of parseRepoInput. -/
structure URLParts where
  hostname : String
  pathname : String
deriving DecidableEq, Repr

/-- A whitespace character as trimmed by String.prototype.trim (the
common ASCII subset; the claims do not depend on the exotic ones). -/
def isTrimmedChar (c : Char) : Bool :=
  c == ' ' || c == '\t' || c == '\n' || c == '\r'

/-- input.trim(): drop leading and trailing whitespace. -/
def strTrim (s : String) : String :=
  String.mk (((s.data.dropWhile isTrimmedChar).reverse.dropWhile isTrimmedChar).reverse)

/-- input.replace(/\/$/, ''): drop one trailing slash when present. -/
def stripTrailingSlash (s : String) : String :=
  if charsEndWith s.data ['/'] then String.mk s.data.dropLast else s

/-- String.prototype.split with a one-character separator: the runs of
characters between occurrences of the separator, empty runs kept. -/
def charsSplitAt (sep : Char) : List Char → List (List Char)
  | [] => [[]]
  | c :: cs =>
    let rest := charsSplitAt sep cs
    if c == sep then [] :: rest
    else
      match rest with
      | r :: rs => (c :: r) :: rs
      | [] => [[c]]

/-- s.split('/') as a list of strings. -/
def splitSlash (s : String) : List String :=
  (charsSplitAt '/' s.data).map String.mk

/-- The fall-through tail of parseRepoInput: split the cleaned input on
"/" and accept exactly two truthy (non-empty) components. -/
def bareParse (cleanInput : String) : Option RepositoryReference :=
  match splitSlash cleanInput with
  | [p0, p1] => if !p0.isEmpty && !p1.isEmpty then some ⟨p0, p1⟩ else none
  | _ => none

/-- parseRepoInput of RepoAnalyzer.tsx: trim and strip a trailing slash;
if the input parses as a URL (per the tryURL oracle, none modelling the
thrown TypeError) with hostname github.com and its pathname has at least
two non-empty slash-separated segments, take the first two; otherwise
fall through to the bare owner/repo split. -/
def parseRepoInput (tryURL : String → Option URLParts) (input : String) :
    Option RepositoryReference :=
  let cleanInput := stripTrailingSlash (strTrim input)
  match tryURL cleanInput with
  | some url =>
    if url.hostname == "github.com" then
      match (splitSlash url.pathname).filter (fun s => !s.isEmpty) with
      | p0 :: p1 :: _ => some ⟨p0, p1⟩
      | _ => bareParse cleanInput
    else bareParse cleanInput
  | none => bareParse cleanInput

/-! Helper lemmas. -/

/-- A string whose isEmpty test is false is not the empty string. -/
theorem isEmpty_false_ne {s : String} (h : s.isEmpty = false) : s ≠ "" := by
  intro hs; subst hs; exact absurd h (by decide)

/-- Both fields produced by the bare owner/repo split are non-empty. -/
theorem bareParse_nonempty {s : String} {ref : RepositoryReference}
    (h : bareParse s = some ref) : ref.owner ≠ "" ∧ ref.repo ≠ "" := by
  unfold bareParse at h
  split at h
  next p0 p1 =>
    split at h
    next hcond =>
      cases h
      simp only [Bool.and_eq_true, Bool.not_eq_true'] at hcond
      exact ⟨isEmpty_false_ne hcond.1, isEmpty_false_ne hcond.2⟩
    next => exact absurd h (by simp)
  next => exact absurd h (by simp)

/-- sameUpToTruncation is reflexive. -/
theorem sameUpToTruncation_refl (r : BranchResponse) : sameUpToTruncation r r := by
  cases r <;> simp [sameUpToTruncation]

/-- A loop iteration treats responses that differ only in the truncated
flag identically. -/
theorem runBranch_congr {r r' : BranchResponse} (h : sameUpToTruncation r r') :
    runBranch r = runBranch r' := by
  cases r <;> cases r' <;> simp_all [sameUpToTruncation, runBranch, tryBody]

/-- The whole loop treats remotes whose responses agree up to the
truncated flag identically, over any candidate list. -/
theorem fetchLoop_congr (owner repo : String)
    (resp resp' : String → String → String → BranchResponse)
    (h : ∀ b, sameUpToTruncation (resp owner repo b) (resp' owner repo b)) :
    ∀ bs, fetchLoop resp owner repo bs = fetchLoop resp' owner repo bs := by
  intro bs
  induction bs with
  | nil => rfl
  | cons b bs ih =>
    have hb := runBranch_congr (h b)
    cases hr : runBranch (resp' owner repo b) <;> simp [fetchLoop, hb, hr, ih]

/-! Claim theorems. -/

/-- C1: when the tree request for the first candidate branch "main"
reports HTTP 403 or 429, fetchRepoFileTree fails at once with the
rate-limit error (whose message contains "rate limit") and the only
branch requested is "main" — no request is issued for "master". -/
theorem rateLimit_aborts_immediately (owner repo : String)
    (resp : String → String → String → BranchResponse) (s : Nat)
    (hmain : resp owner repo "main" = .httpError s) (hs : s = 403 ∨ s = 429) :
    fetchRepoFileTree owner repo resp = (.failure rateLimitMsg, ["main"]) ∧
    strIncludes rateLimitMsg "rate limit" = true := by
  have hrun : runBranch (resp owner repo "main") = .fatal rateLimitMsg := by
    rw [hmain]; rcases hs with rfl | rfl <;> rfl
  exact ⟨by simp [fetchRepoFileTree, branches, fetchLoop, hrun], by decide⟩

/-- C1 witness: a remote answering 403 everywhere. -/
theorem rateLimit_aborts_immediately_witness :
    fetchRepoFileTree "octocat" "hello-world" (fun _ _ _ => .httpError 403) =
      (.failure rateLimitMsg, ["main"]) ∧
    strIncludes rateLimitMsg "rate limit" = true :=
  rateLimit_aborts_immediately "octocat" "hello-world"
    (fun _ _ _ => .httpError 403) 403 rfl (Or.inl rfl)

/-- C2: the filtered list keeps exactly the tree entries of type "blob"
whose path ends case-insensitively in a recognized extension, does not
contain "node_modules", "dist/" or "build/" (the dependency-vendor and
compiled-output directory markers, matched as substrings as the source
does), and does not start with a dot; on the spec's six-entry example
tree only "src/index.ts" survives. -/
theorem filterTree_membership :
    (∀ (tree : List TreeEntry) (e : TreeEntry),
        e ∈ filterTree tree ↔
          e ∈ tree ∧ e.type = "blob" ∧ hasAllowedExtension e.path = true ∧
          strIncludes e.path "node_modules" = false ∧
          strIncludes e.path "dist/" = false ∧
          strIncludes e.path "build/" = false ∧
          charsStartWith e.path.data ['.'] = false) ∧
    filterTree [⟨"src/index.ts", "blob"⟩, ⟨"node_modules/x/y.js", "blob"⟩,
        ⟨"dist/bundle.js", "blob"⟩, ⟨".env", "blob"⟩, ⟨"src/", "tree"⟩,
        ⟨"README.md", "blob"⟩] = [⟨"src/index.ts", "blob"⟩] := by
  refine ⟨?_, rfl⟩
  intro tree e
  simp [filterTree, List.mem_filter, and_assoc]

/-- C3: when both candidate branches are exhausted without a successful
response, fetchRepoFileTree fails with the NotFound message, which
contains both attempted branch names "main" and "master". -/
theorem exhausted_branches_notFound (owner repo : String)
    (resp : String → String → String → BranchResponse)
    (hmain : runBranch (resp owner repo "main") = .next)
    (hmaster : runBranch (resp owner repo "master") = .next) :
    fetchRepoFileTree owner repo resp = (.failure notFoundMsg, ["main", "master"]) ∧
    strIncludes notFoundMsg "main" = true ∧
    strIncludes notFoundMsg "master" = true := by
  refine ⟨?_, by decide, by decide⟩
  simp [fetchRepoFileTree, branches, fetchLoop, hmain, hmaster]

/-- C3 witness: a remote answering 404 for every branch. -/
theorem exhausted_branches_notFound_witness :
    fetchRepoFileTree "octocat" "no-such-repo" (fun _ _ _ => .httpError 404) =
      (.failure notFoundMsg, ["main", "master"]) ∧
    strIncludes notFoundMsg "main" = true ∧
    strIncludes notFoundMsg "master" = true :=
  exhausted_branches_notFound "octocat" "no-such-repo"
    (fun _ _ _ => .httpError 404) rfl rfl

/-- C4: when "main" reports 404 and "master" answers with an ok tree
response, fetchRepoFileTree returns the filtered list derived from the
"master" response, having requested "main" then "master". -/
theorem master_fallback_success (owner repo : String)
    (resp : String → String → String → BranchResponse)
    (t : Bool) (tree : Option (List TreeEntry))
    (hmain : resp owner repo "main" = .httpError 404)
    (hmaster : resp owner repo "master" = .httpOk t tree) :
    fetchRepoFileTree owner repo resp =
      (.success (filterTree (tree.getD [])), ["main", "master"]) := by
  have h1 : runBranch (resp owner repo "main") = .next := by rw [hmain]; rfl
  have h2 : runBranch (resp owner repo "master") = .done (filterTree (tree.getD [])) := by
    rw [hmaster]; rfl
  simp [fetchRepoFileTree, branches, fetchLoop, h1, h2]

/-- C4 witness: 404 on "main", a two-entry tree on "master". -/
theorem master_fallback_success_witness :
    fetchRepoFileTree "octocat" "hello-world"
      (fun _ _ b => if b == "master"
        then .httpOk false (some [⟨"src/index.ts", "blob"⟩, ⟨"README.md", "blob"⟩])
        else .httpError 404) =
      (.success [⟨"src/index.ts", "blob"⟩], ["main", "master"]) :=
  master_fallback_success "octocat" "hello-world"
    (fun _ _ b => if b == "master"
      then .httpOk false (some [⟨"src/index.ts", "blob"⟩, ⟨"README.md", "blob"⟩])
      else .httpError 404)
    false (some [⟨"src/index.ts", "blob"⟩, ⟨"README.md", "blob"⟩]) rfl rfl

/-- C5: when the request for the first candidate branch "main" answers
with an ok tree response, fetchRepoFileTree returns the filtered list
derived from it and requests only "main" — this holds for every tree,
including ones whose filtered list is empty. -/
theorem main_success_no_master_request (owner repo : String)
    (resp : String → String → String → BranchResponse)
    (t : Bool) (tree : Option (List TreeEntry))
    (hmain : resp owner repo "main" = .httpOk t tree) :
    fetchRepoFileTree owner repo resp =
      (.success (filterTree (tree.getD [])), ["main"]) := by
  have hrun : runBranch (resp owner repo "main") = .done (filterTree (tree.getD [])) := by
    rw [hmain]; rfl
  simp [fetchRepoFileTree, branches, fetchLoop, hrun]

/-- C5 witness: an ok "main" response whose only entry is filtered out,
so the empty list is returned without a "master" request. -/
theorem main_success_no_master_request_witness :
    fetchRepoFileTree "octocat" "hello-world"
      (fun _ _ _ => .httpOk false (some [⟨"README.md", "blob"⟩])) =
      (.success [], ["main"]) :=
  main_success_no_master_request "octocat" "hello-world"
    (fun _ _ _ => .httpOk false (some [⟨"README.md", "blob"⟩]))
    false (some [⟨"README.md", "blob"⟩]) rfl

/-- C6 counterexample: a network failure on the non-final candidate
"main" whose message happens to contain the substring "rate limit" is
rethrown by the catch handler and surfaced to the caller, with no
request issued for "master" — contradicting the claim that a non-rate-
limit transient error on a non-final candidate is never surfaced. -/
theorem spoofed_rate_limit_message_surfaced :
    fetchRepoFileTree "octocat" "hello-world"
      (fun _ _ b => if b == "main"
        then .netError "network failure: rate limited by proxy"
        else .httpOk false (some [⟨"src/index.ts", "blob"⟩])) =
      (.failure "network failure: rate limited by proxy", ["main"]) := rfl

/-- C6 (amended): a transient error on the non-final candidate "main"
whose message does not contain the substring "rate limit" is never
surfaced: the loop continues to "master" and the overall result is
whatever the remaining candidate produces; an error is surfaced only
after the last candidate has also failed. -/
theorem transient_non_final_not_surfaced (owner repo : String)
    (resp : String → String → String → BranchResponse) (msg : String)
    (hmain : resp owner repo "main" = .netError msg)
    (hmsg : strIncludes msg "rate limit" = false) :
    fetchRepoFileTree owner repo resp =
      ((fetchLoop resp owner repo ["master"]).1,
        "main" :: (fetchLoop resp owner repo ["master"]).2) ∧
    (runBranch (resp owner repo "master") = .next →
      fetchRepoFileTree owner repo resp = (.failure notFoundMsg, ["main", "master"])) := by
  have hrun : runBranch (resp owner repo "main") = .next := by
    rw [hmain]; simp [runBranch, tryBody, hmsg]
  constructor
  · simp [fetchRepoFileTree, branches, fetchLoop, hrun]
  · intro h2
    simp [fetchRepoFileTree, branches, fetchLoop, hrun, h2]

/-- C6 witness: a connection reset on "main" is swallowed and "master"
delivers the result. -/
theorem transient_non_final_not_surfaced_witness :
    fetchRepoFileTree "octocat" "hello-world"
      (fun _ _ b => if b == "main" then .netError "connection reset"
        else .httpOk false (some [⟨"src/index.ts", "blob"⟩])) =
      (.success [⟨"src/index.ts", "blob"⟩], ["main", "master"]) :=
  (transient_non_final_not_surfaced "octocat" "hello-world"
    (fun _ _ b => if b == "main" then .netError "connection reset"
      else .httpOk false (some [⟨"src/index.ts", "blob"⟩]))
    "connection reset" rfl rfl).1

/-- C7: the truncated flag of an ok response never changes the returned
value: two remotes whose responses agree except possibly on that flag
produce identical results, and an ok response always yields the filtered
list (never an error), whatever the flag. -/
theorem truncation_does_not_change_result (owner repo : String)
    (resp resp' : String → String → String → BranchResponse)
    (h : ∀ b, sameUpToTruncation (resp owner repo b) (resp' owner repo b)) :
    fetchRepoFileTree owner repo resp = fetchRepoFileTree owner repo resp' ∧
    ∀ (t : Bool) (tree : Option (List TreeEntry)),
      runBranch (BranchResponse.httpOk t tree) = .done (filterTree (tree.getD [])) :=
  ⟨fetchLoop_congr owner repo resp resp' h branches, fun _ _ => rfl⟩

/-- C7 witness: the same tree with and without the truncated flag. -/
theorem truncation_does_not_change_result_witness :
    (fetchRepoFileTree "octocat" "hello-world"
        (fun _ _ _ => .httpOk true (some [⟨"src/index.ts", "blob"⟩])) =
      fetchRepoFileTree "octocat" "hello-world"
        (fun _ _ _ => .httpOk false (some [⟨"src/index.ts", "blob"⟩]))) ∧
    ∀ (t : Bool) (tree : Option (List TreeEntry)),
      runBranch (BranchResponse.httpOk t tree) = .done (filterTree (tree.getD [])) :=
  truncation_does_not_change_result "octocat" "hello-world"
    (fun _ _ _ => .httpOk true (some [⟨"src/index.ts", "blob"⟩]))
    (fun _ _ _ => .httpOk false (some [⟨"src/index.ts", "blob"⟩]))
    (fun _ => rfl)

/-- C8: fetchRepoFileTree is a function of the per-branch responses for
the given owner and repo alone: two runs against remotes that answer
identically for every branch of this repository yield identical results
— in particular identical filtered lists, in the same order. -/
theorem resolve_deterministic (owner repo : String)
    (resp resp' : String → String → String → BranchResponse)
    (h : ∀ b, resp owner repo b = resp' owner repo b) :
    fetchRepoFileTree owner repo resp = fetchRepoFileTree owner repo resp' := by
  unfold fetchRepoFileTree
  exact fetchLoop_congr owner repo resp resp'
    (fun b => by rw [h b]; exact sameUpToTruncation_refl _) branches

/-- C8 witness: two syntactically different remotes agreeing on this
repository. -/
theorem resolve_deterministic_witness :
    fetchRepoFileTree "octocat" "hello-world" (fun _ _ _ => .httpError 404) =
      fetchRepoFileTree "octocat" "hello-world"
        (fun o _ _ => if o == "octocat" then .httpError 404 else .httpError 500) :=
  resolve_deterministic "octocat" "hello-world" (fun _ _ _ => .httpError 404)
    (fun o _ _ => if o == "octocat" then .httpError 404 else .httpError 500)
    (fun _ => rfl)

/-- C9: whenever parseRepoInput returns a RepositoryReference — from the
github.com URL branch or the bare owner/repo split, under any behavior
of the URL constructor oracle — both fields are non-empty. -/
theorem parseRepoInput_fields_nonempty (tryURL : String → Option URLParts)
    (input : String) (ref : RepositoryReference)
    (h : parseRepoInput tryURL input = some ref) :
    ref.owner ≠ "" ∧ ref.repo ≠ "" := by
  simp only [parseRepoInput] at h
  split at h
  next url hurl =>
    split at h
    next =>
      split at h
      next p0 p1 tail heq =>
        cases h
        have h0 : p0 ∈ (splitSlash url.pathname).filter (fun s => !s.isEmpty) := by
          rw [heq]; exact List.mem_cons_self p0 (p1 :: tail)
        have h1 : p1 ∈ (splitSlash url.pathname).filter (fun s => !s.isEmpty) := by
          rw [heq]; exact List.mem_cons_of_mem p0 (List.mem_cons_self p1 tail)
        have hp0 := (List.mem_filter.mp h0).2
        have hp1 := (List.mem_filter.mp h1).2
        simp only [Bool.not_eq_true'] at hp0 hp1
        exact ⟨isEmpty_false_ne hp0, isEmpty_false_ne hp1⟩
      next => exact bareParse_nonempty h
    next => exact bareParse_nonempty h
  next => exact bareParse_nonempty h

/-- C9 witness: the bare input "octocat/hello-world" parses and both
fields are non-empty. -/
theorem parseRepoInput_fields_nonempty_witness :
    parseRepoInput (fun _ => none) "octocat/hello-world" =
      some ⟨"octocat", "hello-world"⟩ ∧
    (RepositoryReference.mk "octocat" "hello-world").owner ≠ "" ∧
    (RepositoryReference.mk "octocat" "hello-world").repo ≠ "" :=
  ⟨rfl, parseRepoInput_fields_nonempty (fun _ => none) "octocat/hello-world"
    ⟨"octocat", "hello-world"⟩ rfl⟩

/-- C10: an ok response whose body has no tree field (modelled by none,
so that data.tree defaults to the empty list) makes the loop return the
empty filtered list at that candidate — no error, no further candidates
— and in particular fetchRepoFileTree returns it when this happens on
"main". -/
theorem missing_tree_field_empty_list (owner repo b : String) (bs : List String)
    (resp : String → String → String → BranchResponse) (t : Bool)
    (hb : resp owner repo b = .httpOk t none) :
    fetchLoop resp owner repo (b :: bs) = (.success [], [b]) ∧
    (b = "main" → fetchRepoFileTree owner repo resp = (.success [], ["main"])) := by
  have hrun : runBranch (resp owner repo b) = .done [] := by rw [hb]; rfl
  constructor
  · simp [fetchLoop, hrun]
  · intro hbm
    subst hbm
    simp [fetchRepoFileTree, branches, fetchLoop, hrun]

/-- C10 witness: an ok response with a missing tree field on "main". -/
theorem missing_tree_field_empty_list_witness :
    fetchLoop (fun _ _ _ => .httpOk false none) "octocat" "hello-world"
      ["main", "master"] = (.success [], ["main"]) ∧
    fetchRepoFileTree "octocat" "hello-world" (fun _ _ _ => .httpOk false none) =
      (.success [], ["main"]) := by
  have h := missing_tree_field_empty_list "octocat" "hello-world" "main" ["master"]
    (fun _ _ _ => .httpOk false none) false rfl
  exact ⟨h.1, h.2 rfl⟩

end Link2Link
